import Mathlib

/-!
Verification development for the lemmy federation activity pipeline.

The development shallowly embeds the two activity handlers that are present in
the repository source (`RemoveMod` in crates/apub/src/activities/community/remove_mod.rs
and `UndoVote` in crates/apub/src/activities/voting/undo_vote.rs) together with the
collaborators they call.  Collaborators whose code is not part of the repository
excerpt (the federation library's `ObjectId::dereference`, the verification helper
functions, the database operations, and the inbound verify-then-receive pipeline)
are modelled from the specification, each marked with a doc comment starting
"Modelled from the spec".  Machine state is explicit: the database is a `World`
value threaded through the side-effecting operations, the per-activity fetch
budget and resolution cache form a `ProcState`, and fallible steps return
`Except LemmyError`.
-/

/-- URLs are modelled as plain strings; the pipeline only ever compares them for
equality and uses them as lookup keys. -/
abbrev Url := String

/-- A resolved person entity (`ApubPerson`): its database id and its actor URL. -/
structure Person where
  id : Nat
  actor_id : Url
deriving DecidableEq

/-- A resolved community entity (`ApubCommunity`): its database id and actor URL. -/
structure Community where
  id : Nat
  actor_id : Url
deriving DecidableEq

/-- A post, reduced to its database id. -/
structure Post where
  id : Nat
deriving DecidableEq

/-- A comment, reduced to its database id. -/
structure Comment where
  id : Nat
deriving DecidableEq

/-- The `PostOrComment` sum from the source. -/
inductive PostOrComment where
  | post (p : Post)
  | comment (c : Comment)
deriving DecidableEq

/-- The vote polarity tag (`VoteType`). -/
inductive VoteType where
  | like
  | dislike
deriving DecidableEq

/-- The error taxonomy of the spec (section 7), plus `invalidTarget` for the
target-URL consistency check of add/remove-mod (the source rejects a wrong
moderators-collection target with its own error). -/
inductive LemmyError where
  | malformedEnvelope
  | invalidIdentity
  | addressingPolicyViolation
  | actorNotInCommunity
  | notAuthorized
  | actorMismatch
  | unreachablePeer
  | unexpectedEntityType
  | identityMismatch
  | budgetExhausted
  | applyFailure
  | invalidTarget
deriving DecidableEq

/-- Struct `CommunityModeratorForm` from the source: the key of one row of the
community-moderator relation. -/
structure CommunityModeratorForm where
  community_id : Nat
  person_id : Nat
deriving DecidableEq

/-- Struct `ModAddCommunityForm` from the source: one moderation-log entry.  The source
stores `removed: Option<bool>` and always passes `Some(true)` for a removal; the
polarity is modelled as a plain `Bool`. -/
structure ModAddCommunityForm where
  mod_person_id : Nat
  other_person_id : Nat
  community_id : Nat
  removed : Bool
deriving DecidableEq

/-- The local database state touched by the two activities: community membership
(read by verification), the community-moderator relation, the append-only
moderation log, and the vote records for posts and comments
(person id, target id, score). -/
structure World where
  members : List (Nat × Nat)
  community_moderators : List (Nat × Nat)
  modlog : List ModAddCommunityForm
  post_likes : List (Nat × Nat × Int)
  comment_likes : List (Nat × Nat × Int)
deriving DecidableEq

/-- Modelled from the spec: the `Joinable` impl of `CommunityModerator` is not
under src/.  `CommunityModerator::leave` deletes the (community, person) row;
per the spec, leaving a non-moderator is a no-op (idempotent delete). -/
def CommunityModerator.leave (w : World) (form : CommunityModeratorForm) : World :=
  { w with community_moderators :=
      w.community_moderators.filter (fun q => decide (q ≠ (form.community_id, form.person_id))) }

/-- Modelled from the spec: the `Crud` impl of `ModAddCommunity` is not under
src/.  `ModAddCommunity::create` appends one entry to the append-only
moderation log. -/
def ModAddCommunity.create (w : World) (form : ModAddCommunityForm) : World :=
  { w with modlog := w.modlog ++ [form] }

/-- The external resolution environment: the site federation allow/deny policy
(`check_apub_id_valid`'s decision) and, for each kind of reference, a table of
entities resolvable locally without a fetch and a table of entities reachable by
a network fetch (`none` models an unreachable peer or unknown object).
Communities are looked up by the URL of their moderators collection
(`get_community_from_moderators_url`) and, for votes, by the vote target's
locator (the community context of a vote). -/
structure Env where
  allowed_url : Url → Bool
  local_person : Url → Option Person
  remote_person : Url → Option Person
  local_community_by_mods_url : Url → Option Community
  remote_community_by_mods_url : Url → Option Community
  local_vote_community : Url → Option Community
  remote_vote_community : Url → Option Community
  local_poc : Url → Option PostOrComment
  remote_poc : Url → Option PostOrComment

/-- The per-activity resolution cache (spec section 4.2: resolved entities are
cached for the remainder of the processing session). -/
structure Cache where
  persons : List (Url × Person)
  communities : List (Url × Community)
  vote_communities : List (Url × Community)
  pocs : List (Url × PostOrComment)
deriving DecidableEq

/-- The state threaded through one inbound activity's processing: the remaining
fetch budget and the session resolution cache. -/
structure ProcState where
  budget : Nat
  cache : Cache
deriving DecidableEq

/-- First-match association lookup used by the session cache. -/
def cacheFind {α : Type} : List (Url × α) → Url → Option α
  | [], _ => none
  | (k, v) :: t, u => if k = u then some v else cacheFind t u

/-- The state an inbound activity starts with: a fresh budget and an empty cache. -/
def mkState (b : Nat) : ProcState := ⟨b, ⟨[], [], [], []⟩⟩

/-- Modelled from the spec (section 4.2): `ObjectId::dereference` for persons is
provided by the federation library, not under src/.  A cached or local entity
resolves without consuming budget; otherwise one unit of budget is consumed
(failing with `BudgetExhausted` if the budget is already zero) and the remote
table is consulted, caching the result on success. -/
def derefPerson (u : Url) (env : Env) (s : ProcState) :
    Except LemmyError Person × ProcState :=
  match cacheFind s.cache.persons u with
  | some p => (.ok p, s)
  | none =>
    match env.local_person u with
    | some p => (.ok p, s)
    | none =>
      if s.budget = 0 then (.error .budgetExhausted, s)
      else
        match env.remote_person u with
        | some p =>
            (.ok p, { budget := s.budget - 1,
                      cache := { s.cache with persons := (u, p) :: s.cache.persons } })
        | none => (.error .unreachablePeer, { s with budget := s.budget - 1 })

/-- Modelled from the spec (section 4.2): dereference of a community through the
URL of its moderators collection, with the same cache and budget discipline as
`derefPerson`. -/
def derefCommunityByModsUrl (u : Url) (env : Env) (s : ProcState) :
    Except LemmyError Community × ProcState :=
  match cacheFind s.cache.communities u with
  | some c => (.ok c, s)
  | none =>
    match env.local_community_by_mods_url u with
    | some c => (.ok c, s)
    | none =>
      if s.budget = 0 then (.error .budgetExhausted, s)
      else
        match env.remote_community_by_mods_url u with
        | some c =>
            (.ok c, { budget := s.budget - 1,
                      cache := { s.cache with communities := (u, c) :: s.cache.communities } })
        | none => (.error .unreachablePeer, { s with budget := s.budget - 1 })

/-- Modelled from the spec: resolution of the community context of a vote from
the vote target's locator (`Vote::get_community` is not under src/), with the
same cache and budget discipline as the other resolutions. -/
def derefVoteCommunity (u : Url) (env : Env) (s : ProcState) :
    Except LemmyError Community × ProcState :=
  match cacheFind s.cache.vote_communities u with
  | some c => (.ok c, s)
  | none =>
    match env.local_vote_community u with
    | some c => (.ok c, s)
    | none =>
      if s.budget = 0 then (.error .budgetExhausted, s)
      else
        match env.remote_vote_community u with
        | some c =>
            (.ok c, { budget := s.budget - 1,
                      cache := { s.cache with vote_communities := (u, c) :: s.cache.vote_communities } })
        | none => (.error .unreachablePeer, { s with budget := s.budget - 1 })

/-- Modelled from the spec (section 4.2): dereference of a vote target
(post or comment), with the same cache and budget discipline. -/
def derefPoc (u : Url) (env : Env) (s : ProcState) :
    Except LemmyError PostOrComment × ProcState :=
  match cacheFind s.cache.pocs u with
  | some x => (.ok x, s)
  | none =>
    match env.local_poc u with
    | some x => (.ok x, s)
    | none =>
      if s.budget = 0 then (.error .budgetExhausted, s)
      else
        match env.remote_poc u with
        | some x =>
            (.ok x, { budget := s.budget - 1,
                      cache := { s.cache with pocs := (u, x) :: s.cache.pocs } })
        | none => (.error .unreachablePeer, { s with budget := s.budget - 1 })

/-- The ActivityStreams public-addressing marker (`activitystreams_kinds::public`). -/
def publicUrl : Url := "https://www.w3.org/ns/activitystreams#Public"

/-- Modelled from the spec: `check_apub_id_valid` (the site-wide federation
allow/deny policy on the activity's own id) is not under src/; the policy
decision is the environment's `allowed_url`. -/
def check_apub_id_valid (env : Env) (id : Url) : Except LemmyError Unit :=
  if env.allowed_url id then .ok () else .error .invalidIdentity

/-- Modelled from the spec: `verify_is_public` is not under src/; at least one of
the to/cc addressing lists must carry the public marker. -/
def verify_is_public (to_ cc : List Url) : Except LemmyError Unit :=
  if publicUrl ∈ to_ ∨ publicUrl ∈ cc then .ok () else .error .addressingPolicyViolation

/-- Modelled from the spec (section 4.3 step 5): URL-equality check between an
outer activity's actor and a nested activity's actor (`verify_urls_match`). -/
def verify_urls_match (a b : Url) : Except LemmyError Unit :=
  if a = b then .ok () else .error .actorMismatch

/-- Modelled from the spec: `generate_moderators_url` builds the URL of a
community's moderators collection from the community's actor URL. -/
def generate_moderators_url (communityActorId : Url) : Url :=
  communityActorId ++ "/moderators"

/-- Modelled from the spec: `verify_add_remove_moderator_target` is not under
src/; the activity's target must be exactly the community's moderators
collection URL. -/
def verify_add_remove_moderator_target (target : Url) (community : Community) :
    Except LemmyError Unit :=
  if target = generate_moderators_url community.actor_id then .ok ()
  else .error .invalidTarget

/-- Modelled from the spec (section 4.3 step 3): `verify_person_in_community` is
not under src/; it resolves the actor and rejects non-members with
`ActorNotInCommunity`. -/
def verify_person_in_community (actorUrl : Url) (community : Community) (env : Env)
    (w : World) (s : ProcState) : Except LemmyError Unit × ProcState :=
  match derefPerson actorUrl env s with
  | (.error e, s1) => (.error e, s1)
  | (.ok p, s1) =>
    if (community.id, p.id) ∈ w.members then (.ok (), s1)
    else (.error .actorNotInCommunity, s1)

/-- Modelled from the spec (section 4.3 step 4): `verify_mod_action` is not under
src/; it resolves the acting moderator and rejects with `NotAuthorized` unless
that person currently holds moderator standing in the community.  The object URL
is passed by the caller as in the source but carries no check of its own here. -/
def verify_mod_action (actorUrl : Url) (_objectUrl : Url) (communityId : Nat) (env : Env)
    (w : World) (s : ProcState) : Except LemmyError Unit × ProcState :=
  match derefPerson actorUrl env s with
  | (.error e, s1) => (.error e, s1)
  | (.ok m, s1) =>
    if (communityId, m.id) ∈ w.community_moderators then (.ok (), s1)
    else (.error .notAuthorized, s1)

/-- Modelled from the spec: `get_community_from_moderators_url` is not under
src/; it resolves the community owning the given moderators collection URL. -/
def get_community_from_moderators_url (modsUrl : Url) (env : Env) (s : ProcState) :
    Except LemmyError Community × ProcState :=
  derefCommunityByModsUrl modsUrl env s

/-- Modelled from the spec: `undo_vote_post` is not under src/; it retracts
whatever vote record exists for (person, post), regardless of its polarity
(`PostLike::remove`). -/
def undo_vote_post (actor : Person) (p : Post) (w : World) : World :=
  { w with post_likes :=
      w.post_likes.filter (fun t => decide (¬ (t.1 = actor.id ∧ t.2.1 = p.id))) }

/-- Modelled from the spec: `undo_vote_comment` is not under src/; it retracts
whatever vote record exists for (person, comment), regardless of its polarity
(`CommentLike::remove`). -/
def undo_vote_comment (actor : Person) (c : Comment) (w : World) : World :=
  { w with comment_likes :=
      w.comment_likes.filter (fun t => decide (¬ (t.1 = actor.id ∧ t.2.1 = c.id))) }

/-- The RemoveMod envelope.  Its protocol struct is not under src/, but the
sibling `AddMod` struct is, and `RemoveMod::send` in src constructs exactly the
fields actor, to, object, target, id, cc (plus the constant kind tag and the
unparsed extension bag, which carry no information used by the pipeline and are
omitted). -/
structure RemoveMod where
  actor : Url
  to_ : List Url
  object : Url
  target : Url
  cc : List Url
  id : Url
deriving DecidableEq

/-- The wrapped Vote object.  Its protocol struct is not under src/; the fields
are those used by the source (actor, object, kind, id).  The struct carries no
to/cc addressing. -/
structure Vote where
  actor : Url
  object : Url
  kind : VoteType
  id : Url
deriving DecidableEq

/-- The UndoVote envelope, with exactly the fields constructed by
`UndoVote::send` in src: actor, object (the wrapped Vote), the constant kind
tag (omitted) and id.  Note that the envelope has no to/cc addressing fields at
all. -/
structure UndoVote where
  actor : Url
  object : Vote
  id : Url
deriving DecidableEq

/-- Impl of `GetCommunity for RemoveMod` (src): the community is resolved from the
activity's target, the moderators collection URL. -/
def RemoveMod.getCommunity (a : RemoveMod) (env : Env) (s : ProcState) :
    Except LemmyError Community × ProcState :=
  get_community_from_moderators_url a.target env s

/-- Handler `RemoveMod::verify`, mirroring src lines 83-105: id policy check, public
addressing, community resolution, actor membership, moderator authorization,
then the target-URL consistency check. -/
def RemoveMod.verify (a : RemoveMod) (env : Env) (w : World) (s : ProcState) :
    Except LemmyError Unit × ProcState :=
  match check_apub_id_valid env a.id with
  | .error e => (.error e, s)
  | .ok _ =>
    match verify_is_public a.to_ a.cc with
    | .error e => (.error e, s)
    | .ok _ =>
      match RemoveMod.getCommunity a env s with
      | (.error e, s1) => (.error e, s1)
      | (.ok community, s1) =>
        match verify_person_in_community a.actor community env w s1 with
        | (.error e, s2) => (.error e, s2)
        | (.ok _, s2) =>
          match verify_mod_action a.actor a.object community.id env w s2 with
          | (.error e, s3) => (.error e, s3)
          | (.ok _, s3) =>
            match verify_add_remove_moderator_target a.target community with
            | .error e => (.error e, s3)
            | .ok _ => (.ok (), s3)

/-- Handler `RemoveMod::receive`, mirroring src lines 108-140: resolve the community and
the removed person, delete the moderator row, then resolve the actor and append
the moderation-log entry with removed = true.  As in the source, the moderator
row deletion has already happened when the later steps run, so a failure there
propagates with the deletion kept. -/
def RemoveMod.receive (a : RemoveMod) (env : Env) (w : World) (s : ProcState) :
    Except LemmyError Unit × World × ProcState :=
  match RemoveMod.getCommunity a env s with
  | (.error e, s1) => (.error e, w, s1)
  | (.ok community, s1) =>
    match derefPerson a.object env s1 with
    | (.error e, s2) => (.error e, w, s2)
    | (.ok remove_mod, s2) =>
      let w1 := CommunityModerator.leave w ⟨community.id, remove_mod.id⟩
      match derefPerson a.actor env s2 with
      | (.error e, s3) => (.error e, w1, s3)
      | (.ok actor, s3) =>
        (.ok (), ModAddCommunity.create w1 ⟨actor.id, remove_mod.id, community.id, true⟩, s3)

/-- Modelled from the spec: `Vote::get_community` is not under src/.  Per the
spec (section 4.3 step 3, and the section 8 scenario in which ActorMismatch is
raised before any resolution of the vote's target), the community context is
resolved from the vote target's locator without dereferencing the target
post/comment itself. -/
def Vote.getCommunity (v : Vote) (env : Env) (s : ProcState) :
    Except LemmyError Community × ProcState :=
  derefVoteCommunity v.object env s

/-- Modelled from the spec: `Vote::verify` is not under src/.  Per section 4.3
it checks identity validity of the vote's own id and community membership of the
vote's actor; the Vote struct carries no addressing to check. -/
def Vote.verify (v : Vote) (env : Env) (w : World) (s : ProcState) :
    Except LemmyError Unit × ProcState :=
  match check_apub_id_valid env v.id with
  | .error e => (.error e, s)
  | .ok _ =>
    match Vote.getCommunity v env s with
    | (.error e, s1) => (.error e, s1)
    | (.ok community, s1) => verify_person_in_community v.actor community env w s1

/-- Impl of `GetCommunity for UndoVote` (src): delegates to the wrapped vote. -/
def UndoVote.getCommunity (uv : UndoVote) (env : Env) (s : ProcState) :
    Except LemmyError Community × ProcState :=
  Vote.getCommunity uv.object env s

/-- Handler `UndoVote::verify`, mirroring src lines 77-90: id policy check, community
resolution, actor membership, actor-URL match between the envelope and the
wrapped vote, then recursive verification of the wrapped vote.  There is no
addressing check: the envelope has no addressing fields. -/
def UndoVote.verify (uv : UndoVote) (env : Env) (w : World) (s : ProcState) :
    Except LemmyError Unit × ProcState :=
  match check_apub_id_valid env uv.id with
  | .error e => (.error e, s)
  | .ok _ =>
    match UndoVote.getCommunity uv env s with
    | (.error e, s1) => (.error e, s1)
    | (.ok community, s1) =>
      match verify_person_in_community uv.actor community env w s1 with
      | (.error e, s2) => (.error e, s2)
      | (.ok _, s2) =>
        match verify_urls_match uv.actor uv.object.actor with
        | .error e => (.error e, s2)
        | .ok _ => Vote.verify uv.object env w s2

/-- Handler `UndoVote::receive`, mirroring src lines 93-111: resolve the actor and the
wrapped vote's target, then retract that actor's vote on the post or comment.
The wrapped vote's kind field is never consulted. -/
def UndoVote.receive (uv : UndoVote) (env : Env) (w : World) (s : ProcState) :
    Except LemmyError Unit × World × ProcState :=
  match derefPerson uv.actor env s with
  | (.error e, s1) => (.error e, w, s1)
  | (.ok actor, s1) =>
    match derefPoc uv.object.object env s1 with
    | (.error e, s2) => (.error e, w, s2)
    | (.ok x, s2) =>
      match x with
      | .post p => (.ok (), undo_vote_post actor p w, s2)
      | .comment c => (.ok (), undo_vote_comment actor c w, s2)

/-- Modelled from the spec: the inbound pipeline (deserialize, then verify, then
apply only on success; reject and report on failure) is orchestrated by the
federation library, not under src/.  Processing of one inbound RemoveMod starts
with a fresh budget and an empty session cache; the same counter and cache are
threaded from verification into receive. -/
def processRemoveMod (a : RemoveMod) (env : Env) (w : World) (b : Nat) :
    Except LemmyError Unit × World × ProcState :=
  match RemoveMod.verify a env w (mkState b) with
  | (.error e, s1) => (.error e, w, s1)
  | (.ok _, s1) => RemoveMod.receive a env w s1

/-- Modelled from the spec: the inbound pipeline for one UndoVote activity, as
for `processRemoveMod`. -/
def processUndoVote (uv : UndoVote) (env : Env) (w : World) (b : Nat) :
    Except LemmyError Unit × World × ProcState :=
  match UndoVote.verify uv env w (mkState b) with
  | (.error e, s1) => (.error e, w, s1)
  | (.ok _, s1) => UndoVote.receive uv env w s1

/-- The list of vote scores recorded for a person on a post or comment. -/
def recordedVotes (w : World) (personId : Nat) (x : PostOrComment) : List Int :=
  match x with
  | .post p =>
      (w.post_likes.filter (fun t => decide (t.1 = personId ∧ t.2.1 = p.id))).map
        (fun t => t.2.2)
  | .comment c =>
      (w.comment_likes.filter (fun t => decide (t.1 = personId ∧ t.2.1 = c.id))).map
        (fun t => t.2.2)

/-- Concrete entities used to evaluate the pipeline on closed inputs. -/
def personA : Person := ⟨1, "A"⟩

def personP : Person := ⟨2, "P"⟩

def personN : Person := ⟨4, "N"⟩

def communityC : Community := ⟨5, "C"⟩

def postX : Post := ⟨9⟩

/-- A concrete resolution environment: persons A (a moderator), P (a moderator,
the removal target) and N (a member who is not a moderator) resolve locally;
community C is found under its moderators collection URL "C/moderators" and as
the community context of the vote-target locator "X", which resolves to post 9;
every URL except "bad" passes the site policy. -/
def env1 : Env where
  allowed_url := fun u => decide (u ≠ "bad")
  local_person := fun u =>
    if u = "A" then some personA
    else if u = "P" then some personP
    else if u = "N" then some personN
    else none
  remote_person := fun _ => none
  local_community_by_mods_url := fun u =>
    if u = "C/moderators" then some communityC else none
  remote_community_by_mods_url := fun _ => none
  local_vote_community := fun u => if u = "X" then some communityC else none
  remote_vote_community := fun _ => none
  local_poc := fun u => if u = "X" then some (PostOrComment.post postX) else none
  remote_poc := fun _ => none

/-- A concrete database: A, P and N are members of community 5; A and P are its
moderators; A has one recorded upvote on post 9. -/
def wrld : World := ⟨[(5, 1), (5, 2), (5, 4)], [(5, 1), (5, 2)], [], [(1, 9, 1)], []⟩

/-- The database after a successful RemoveMod of P from community 5 sent by A. -/
def wrldOut : World := ⟨[(5, 1), (5, 2), (5, 4)], [(5, 1)], [⟨1, 2, 5, true⟩], [(1, 9, 1)], []⟩

/-- The database after A's vote on post 9 has been retracted. -/
def wrldUndone : World := ⟨[(5, 1), (5, 2), (5, 4)], [(5, 1), (5, 2)], [], [], []⟩

/-- A well-formed RemoveMod: moderator A removes moderator P from community C. -/
def rm1 : RemoveMod := ⟨"A", [publicUrl], "P", "C/moderators", [], "rm1"⟩

/-- A RemoveMod whose own id is rejected by the site policy. -/
def rmBad : RemoveMod := ⟨"A", [publicUrl], "P", "C/moderators", [], "bad"⟩

/-- A RemoveMod sent by N, who is a member but not a moderator. -/
def rmN : RemoveMod := ⟨"N", [publicUrl], "P", "C/moderators", [], "rmN"⟩

/-- A RemoveMod whose target community is only reachable by a network fetch. -/
def rmFar : RemoveMod := ⟨"A", [publicUrl], "P", "D/moderators", [], "rmFar"⟩

/-- A well-formed UndoVote: A undoes A's vote on the target "X" (post 9). -/
def uv0 : UndoVote := ⟨"A", ⟨"A", "X", VoteType.like, "v0"⟩, "u0"⟩

/-- A crafted UndoVote whose wrapped vote names a different actor than the
envelope. -/
def uv1 : UndoVote := ⟨"A", ⟨"B", "X", VoteType.like, "v1"⟩, "u1"⟩

/-- A person reference that resolves from state `s` without a fetch: either it is
in the session cache or the local table knows it. -/
def personHit (env : Env) (l : List (Url × Person)) (u : Url) (p : Person) : Prop :=
  cacheFind l u = some p ∨ (cacheFind l u = none ∧ env.local_person u = some p)

/-- A community reference (by moderators URL) that resolves without a fetch. -/
def communityHit (env : Env) (l : List (Url × Community)) (u : Url) (c : Community) : Prop :=
  cacheFind l u = some c ∨ (cacheFind l u = none ∧ env.local_community_by_mods_url u = some c)

/-- Every cached person entry agrees with the remote table it was fetched from. -/
def personsConsistent (env : Env) (l : List (Url × Person)) : Prop :=
  ∀ u p, cacheFind l u = some p → env.remote_person u = some p

/-- Every cached community entry agrees with the remote table it was fetched from. -/
def communitiesConsistent (env : Env) (l : List (Url × Community)) : Prop :=
  ∀ u c, cacheFind l u = some c → env.remote_community_by_mods_url u = some c

lemma personsConsistent_nil (env : Env) : personsConsistent env [] := by
  intro u p h
  simp [cacheFind] at h

lemma derefPerson_ok_hit {u : Url} {env : Env} {s : ProcState} {p : Person} {s1 : ProcState}
    (h : derefPerson u env s = (.ok p, s1)) :
    personHit env s1.cache.persons u p := by
  unfold derefPerson at h
  split at h
  · simp only [Prod.mk.injEq, Except.ok.injEq] at h
    obtain ⟨rfl, rfl⟩ := h
    exact Or.inl (by assumption)
  · split at h
    · simp only [Prod.mk.injEq, Except.ok.injEq] at h
      obtain ⟨rfl, rfl⟩ := h
      exact Or.inr ⟨by assumption, by assumption⟩
    · split at h
      · simp at h
      · split at h
        · simp only [Prod.mk.injEq, Except.ok.injEq] at h
          obtain ⟨rfl, rfl⟩ := h
          exact Or.inl (by simp [cacheFind])
        · simp at h

lemma derefPerson_of_hit {u : Url} {env : Env} {s : ProcState} {p : Person}
    (h : personHit env s.cache.persons u p) :
    derefPerson u env s = (.ok p, s) := by
  rcases h with h | ⟨h1, h2⟩
  · unfold derefPerson
    rw [h]
  · unfold derefPerson
    rw [h1, h2]

lemma derefPerson_frame {v : Url} {env : Env} {s : ProcState} {r : Except LemmyError Person}
    {s1 : ProcState} (h : derefPerson v env s = (r, s1)) :
    s1.cache.communities = s.cache.communities ∧
      s1.cache.vote_communities = s.cache.vote_communities ∧
      s1.cache.pocs = s.cache.pocs := by
  unfold derefPerson at h
  split at h <;> [skip; split at h] <;>
    [ (obtain ⟨rfl, rfl⟩ := Prod.mk.injEq .. ▸ h; exact ⟨rfl, rfl, rfl⟩);
      (obtain ⟨rfl, rfl⟩ := Prod.mk.injEq .. ▸ h; exact ⟨rfl, rfl, rfl⟩);
      skip]
  split at h
  · obtain ⟨rfl, rfl⟩ := Prod.mk.injEq .. ▸ h
    exact ⟨rfl, rfl, rfl⟩
  · split at h <;> (obtain ⟨rfl, rfl⟩ := Prod.mk.injEq .. ▸ h; exact ⟨rfl, rfl, rfl⟩)

lemma cacheFind_cons {α : Type} (k : Url) (v : α) (t : List (Url × α)) (u : Url) :
    cacheFind ((k, v) :: t) u = if k = u then some v else cacheFind t u := rfl

lemma derefPerson_mono {v : Url} {env : Env} {s : ProcState} {r : Except LemmyError Person}
    {s1 : ProcState} (h : derefPerson v env s = (r, s1)) {u : Url} {p : Person}
    (hh : personHit env s.cache.persons u p) :
    personHit env s1.cache.persons u p := by
  unfold derefPerson at h
  split at h
  · injection h with h1 h2
    subst h2
    exact hh
  · split at h
    · injection h with h1 h2
      subst h2
      exact hh
    · split at h
      · injection h with h1 h2
        subst h2
        exact hh
      · split at h
        · injection h with h1 h2
          subst h2
          rcases hh with hc | ⟨hc, hl⟩
          · refine Or.inl ?_
            rw [cacheFind_cons]
            split
            · next heq =>
              subst heq
              simp_all
            · exact hc
          · refine Or.inr ⟨?_, hl⟩
            rw [cacheFind_cons]
            split
            · next heq =>
              subst heq
              simp_all
            · exact hc
        · injection h with h1 h2
          subst h2
          exact hh

lemma derefPerson_consistent {v : Url} {env : Env} {s : ProcState}
    {r : Except LemmyError Person} {s1 : ProcState} (h : derefPerson v env s = (r, s1))
    (hC : personsConsistent env s.cache.persons) :
    personsConsistent env s1.cache.persons := by
  unfold derefPerson at h
  split at h
  · injection h with h1 h2
    subst h2
    exact hC
  · split at h
    · injection h with h1 h2
      subst h2
      exact hC
    · split at h
      · injection h with h1 h2
        subst h2
        exact hC
      · split at h
        · injection h with h1 h2
          subst h2
          intro u p hu
          rw [cacheFind_cons] at hu
          revert hu
          split
          · next heq =>
            subst heq
            intro hu
            injection hu with hu
            subst hu
            assumption
          · exact hC u p
        · injection h with h1 h2
          subst h2
          exact hC

lemma derefPerson_ok_tables {u : Url} {env : Env} {s : ProcState} {p : Person}
    {s1 : ProcState} (hC : personsConsistent env s.cache.persons)
    (h : derefPerson u env s = (.ok p, s1)) :
    env.local_person u = some p ∨ env.remote_person u = some p := by
  unfold derefPerson at h
  split at h
  · injection h with h1 h2
    injection h1 with h1
    subst h1
    exact Or.inr (hC u _ (by assumption))
  · split at h
    · injection h with h1 h2
      injection h1 with h1
      subst h1
      exact Or.inl (by assumption)
    · split at h
      · simp at h
      · split at h
        · injection h with h1 h2
          injection h1 with h1
          subst h1
          exact Or.inr (by assumption)
        · simp at h

lemma communitiesConsistent_nil (env : Env) : communitiesConsistent env [] := by
  intro u c h
  simp [cacheFind] at h

lemma derefCommunity_ok_hit {u : Url} {env : Env} {s : ProcState} {c : Community}
    {s1 : ProcState} (h : derefCommunityByModsUrl u env s = (.ok c, s1)) :
    communityHit env s1.cache.communities u c := by
  unfold derefCommunityByModsUrl at h
  split at h
  · injection h with h1 h2
    injection h1 with h1
    subst h1 h2
    exact Or.inl (by assumption)
  · split at h
    · injection h with h1 h2
      injection h1 with h1
      subst h1 h2
      exact Or.inr ⟨by assumption, by assumption⟩
    · split at h
      · simp at h
      · split at h
        · injection h with h1 h2
          injection h1 with h1
          subst h1 h2
          exact Or.inl (by simp [cacheFind])
        · simp at h

lemma derefCommunity_of_hit {u : Url} {env : Env} {s : ProcState} {c : Community}
    (h : communityHit env s.cache.communities u c) :
    derefCommunityByModsUrl u env s = (.ok c, s) := by
  rcases h with h | ⟨h1, h2⟩
  · unfold derefCommunityByModsUrl
    rw [h]
  · unfold derefCommunityByModsUrl
    rw [h1, h2]

lemma derefCommunity_frame {v : Url} {env : Env} {s : ProcState}
    {r : Except LemmyError Community} {s1 : ProcState}
    (h : derefCommunityByModsUrl v env s = (r, s1)) :
    s1.cache.persons = s.cache.persons ∧
      s1.cache.vote_communities = s.cache.vote_communities ∧
      s1.cache.pocs = s.cache.pocs := by
  unfold derefCommunityByModsUrl at h
  split at h
  · injection h with h1 h2
    subst h2
    exact ⟨rfl, rfl, rfl⟩
  · split at h
    · injection h with h1 h2
      subst h2
      exact ⟨rfl, rfl, rfl⟩
    · split at h
      · injection h with h1 h2
        subst h2
        exact ⟨rfl, rfl, rfl⟩
      · split at h <;> (injection h with h1 h2; subst h2; exact ⟨rfl, rfl, rfl⟩)

lemma derefCommunity_ok_tables {u : Url} {env : Env} {s : ProcState} {c : Community}
    {s1 : ProcState} (hC : communitiesConsistent env s.cache.communities)
    (h : derefCommunityByModsUrl u env s = (.ok c, s1)) :
    env.local_community_by_mods_url u = some c ∨
      env.remote_community_by_mods_url u = some c := by
  unfold derefCommunityByModsUrl at h
  split at h
  · injection h with h1 h2
    injection h1 with h1
    subst h1
    exact Or.inr (hC u _ (by assumption))
  · split at h
    · injection h with h1 h2
      injection h1 with h1
      subst h1
      exact Or.inl (by assumption)
    · split at h
      · simp at h
      · split at h
        · injection h with h1 h2
          injection h1 with h1
          subst h1
          exact Or.inr (by assumption)
        · simp at h

lemma removeMod_verify_ok_facts {a : RemoveMod} {env : Env} {w : World} {b : Nat}
    {u : Unit} {s1 : ProcState}
    (h : RemoveMod.verify a env w (mkState b) = (.ok u, s1)) :
    ∃ c m,
      (env.local_community_by_mods_url a.target = some c ∨
        env.remote_community_by_mods_url a.target = some c) ∧
      (env.local_person a.actor = some m ∨ env.remote_person a.actor = some m) ∧
      communityHit env s1.cache.communities a.target c ∧
      personHit env s1.cache.persons a.actor m ∧
      personsConsistent env s1.cache.persons := by
  unfold RemoveMod.verify at h
  split at h
  · simp at h
  · split at h
    · simp at h
    · split at h
      · simp at h
      · next community sA hcom =>
        split at h
        · simp at h
        · next u2 sB hp =>
          split at h
          · simp at h
          · next u3 sC hm =>
            split at h
            · simp at h
            · injection h with h1 h2
              subst h2
              -- unpack the community resolution
              rw [RemoveMod.getCommunity, get_community_from_moderators_url] at hcom
              -- unpack the membership check into its person dereference
              unfold verify_person_in_community at hp
              split at hp
              · simp at hp
              · next m sB0 hpd =>
                split at hp
                · injection hp with hp1 hp2
                  subst hp2
                  -- the verify_mod_action dereference is a cache hit
                  have hhitB : personHit env sB0.cache.persons a.actor m :=
                    derefPerson_ok_hit hpd
                  have hmodEq : derefPerson a.actor env sB0 = (.ok m, sB0) :=
                    derefPerson_of_hit hhitB
                  unfold verify_mod_action at hm
                  split at hm
                  · next e sx hd2 =>
                    rw [hmodEq] at hd2
                    simp at hd2
                  · next m2 sx hd2 =>
                    rw [hmodEq] at hd2
                    injection hd2 with hd21 hd22
                    injection hd21 with hd21
                    subst hd21
                    subst hd22
                    split at hm
                    · injection hm with hm1 hm2
                      subst hm2
                      have hframe := derefCommunity_frame hcom
                      have hframe2 := derefPerson_frame hpd
                      have hconsA : personsConsistent env sA.cache.persons := by
                        rw [hframe.1]
                        exact personsConsistent_nil env
                      refine ⟨community, m, ?_, ?_, ?_, hhitB, ?_⟩
                      · refine derefCommunity_ok_tables ?_ hcom
                        exact communitiesConsistent_nil env
                      · exact derefPerson_ok_tables hconsA hpd
                      · rw [hframe2.1]
                        exact derefCommunity_ok_hit hcom
                      · exact derefPerson_consistent hpd hconsA
                    · simp at hm
                · simp at hp

lemma removeMod_receive_under_hits {a : RemoveMod} {env : Env} {w : World} {s : ProcState}
    {c : Community} {m : Person}
    (hcc : communityHit env s.cache.communities a.target c)
    (hpm : personHit env s.cache.persons a.actor m)
    (hC : personsConsistent env s.cache.persons) :
    ((∃ e, (RemoveMod.receive a env w s).1 = .error e) ∧
      (RemoveMod.receive a env w s).2.1 = w) ∨
    (∃ p, (env.local_person a.object = some p ∨ env.remote_person a.object = some p) ∧
      (RemoveMod.receive a env w s).1 = .ok () ∧
      (RemoveMod.receive a env w s).2.1 = { w with community_moderators := w.community_moderators.filter (fun q => decide (q ≠ (c.id, p.id))), modlog := w.modlog ++ [⟨m.id, p.id, c.id, true⟩] }) := by
  have hcomEq : derefCommunityByModsUrl a.target env s = (.ok c, s) :=
    derefCommunity_of_hit hcc
  cases hobj : derefPerson a.object env s with
  | mk r2 s2 =>
    cases r2 with
    | error e =>
      refine Or.inl ⟨⟨e, ?_⟩, ?_⟩ <;>
        simp [RemoveMod.receive, RemoveMod.getCommunity, get_community_from_moderators_url,
          hcomEq, hobj]
    | ok p =>
      have hmono : personHit env s2.cache.persons a.actor m :=
        derefPerson_mono hobj hpm
      have hactEq : derefPerson a.actor env s2 = (.ok m, s2) :=
        derefPerson_of_hit hmono
      refine Or.inr ⟨p, derefPerson_ok_tables hC hobj, ?_, ?_⟩ <;>
        simp [RemoveMod.receive, RemoveMod.getCommunity, get_community_from_moderators_url,
          hcomEq, hobj, hactEq, CommunityModerator.leave, ModAddCommunity.create]

lemma processRemoveMod_spec (a : RemoveMod) (env : Env) (w : World) (b : Nat) :
    ((∃ e, (processRemoveMod a env w b).1 = .error e) ∧
      (processRemoveMod a env w b).2.1 = w) ∨
    (∃ c p m,
      (env.local_community_by_mods_url a.target = some c ∨
        env.remote_community_by_mods_url a.target = some c) ∧
      (env.local_person a.object = some p ∨ env.remote_person a.object = some p) ∧
      (env.local_person a.actor = some m ∨ env.remote_person a.actor = some m) ∧
      (processRemoveMod a env w b).1 = .ok () ∧
      (processRemoveMod a env w b).2.1 = { w with community_moderators := w.community_moderators.filter (fun q => decide (q ≠ (c.id, p.id))), modlog := w.modlog ++ [⟨m.id, p.id, c.id, true⟩] }) := by
  unfold processRemoveMod
  cases hv : RemoveMod.verify a env w (mkState b) with
  | mk r1 s1 =>
    cases r1 with
    | error e =>
      exact Or.inl ⟨⟨e, rfl⟩, rfl⟩
    | ok u =>
      obtain ⟨c, m, htabC, htabM, hcc, hpm, hC⟩ := removeMod_verify_ok_facts hv
      rcases @removeMod_receive_under_hits a env w s1 c m hcc hpm hC with
        ⟨⟨e, he⟩, hw⟩ | ⟨p, htabP, hok, hw⟩
      · exact Or.inl ⟨⟨e, he⟩, hw⟩
      · exact Or.inr ⟨c, p, m, htabC, htabP, htabM, hok, hw⟩

lemma processUndoVote_error_world {uv : UndoVote} {env : Env} {w : World} {b : Nat}
    {e : LemmyError} (h : (processUndoVote uv env w b).1 = .error e) :
    (processUndoVote uv env w b).2.1 = w := by
  cases hv : UndoVote.verify uv env w (mkState b) with
  | mk r1 s1 =>
    cases r1 with
    | error e1 => simp [processUndoVote, hv]
    | ok u =>
      cases hact : derefPerson uv.actor env s1 with
      | mk r2 s2 =>
        cases r2 with
        | error e2 => simp [processUndoVote, UndoVote.receive, hv, hact]
        | ok actor =>
          cases hpoc : derefPoc uv.object.object env s2 with
          | mk r3 s3 =>
            cases r3 with
            | error e3 => simp [processUndoVote, UndoVote.receive, hv, hact, hpoc]
            | ok x =>
              cases x with
              | post p =>
                simp [processUndoVote, UndoVote.receive, hv, hact, hpoc] at h
              | comment c0 =>
                simp [processUndoVote, UndoVote.receive, hv, hact, hpoc] at h

lemma check_apub_id_valid_err {env : Env} {i : Url} {e : LemmyError}
    (h : check_apub_id_valid env i = .error e) : e = .invalidIdentity := by
  unfold check_apub_id_valid at h
  split at h
  · simp at h
  · injection h with h
    exact h.symm

lemma verify_urls_match_ok {a b : Url} {u : Unit} (h : verify_urls_match a b = .ok u) :
    a = b := by
  unfold verify_urls_match at h
  split at h
  · assumption
  · simp at h

lemma verify_urls_match_err {a b : Url} {e : LemmyError}
    (h : verify_urls_match a b = .error e) : e = .actorMismatch := by
  unfold verify_urls_match at h
  split at h
  · simp at h
  · injection h with h
    exact h.symm

lemma verify_urls_match_ne {a b : Url} (h : a ≠ b) :
    verify_urls_match a b = .error .actorMismatch := by
  unfold verify_urls_match
  split
  · next heq => exact absurd heq h
  · rfl

lemma derefPerson_not_addr (u : Url) (env : Env) (s : ProcState) :
    (derefPerson u env s).1 ≠ .error .addressingPolicyViolation := by
  unfold derefPerson
  split
  · simp
  · split
    · simp
    · split
      · simp
      · split
        · simp
        · simp

lemma derefVoteCommunity_not_addr (u : Url) (env : Env) (s : ProcState) :
    (derefVoteCommunity u env s).1 ≠ .error .addressingPolicyViolation := by
  unfold derefVoteCommunity
  split
  · simp
  · split
    · simp
    · split
      · simp
      · split
        · simp
        · simp

lemma verify_person_in_community_not_addr (aUrl : Url) (c : Community) (env : Env)
    (w : World) (s : ProcState) :
    (verify_person_in_community aUrl c env w s).1 ≠ .error .addressingPolicyViolation := by
  unfold verify_person_in_community
  split
  · next e s1 hd =>
    intro hcontra
    have h2 : e = .addressingPolicyViolation := by injection hcontra
    refine derefPerson_not_addr aUrl env s ?_
    rw [hd, h2]
  · split <;> simp

lemma vote_verify_not_addr (v : Vote) (env : Env) (w : World) (s : ProcState) :
    (Vote.verify v env w s).1 ≠ .error .addressingPolicyViolation := by
  unfold Vote.verify
  split
  · next e heq =>
    have h1 := check_apub_id_valid_err heq
    intro hcontra
    have h2 : e = .addressingPolicyViolation := by injection hcontra
    rw [h1] at h2
    exact absurd h2 (by simp)
  · split
    · next e s1 hd =>
      intro hcontra
      have h2 : e = .addressingPolicyViolation := by injection hcontra
      refine derefVoteCommunity_not_addr v.object env s ?_
      have h3 : (derefVoteCommunity v.object env s).1 = .error e := by
        rw [Vote.getCommunity] at hd
        rw [hd]
      rw [h3, h2]
    · next community s1 hd =>
      exact verify_person_in_community_not_addr v.actor community env w s1

lemma undoVote_verify_not_addr_raw (uv : UndoVote) (env : Env) (w : World) (s : ProcState) :
    (UndoVote.verify uv env w s).1 ≠ .error .addressingPolicyViolation := by
  unfold UndoVote.verify
  split
  · next e heq =>
    have h1 := check_apub_id_valid_err heq
    intro hcontra
    have h2 : e = .addressingPolicyViolation := by injection hcontra
    rw [h1] at h2
    exact absurd h2 (by simp)
  · split
    · next e s1 hd =>
      intro hcontra
      have h2 : e = .addressingPolicyViolation := by injection hcontra
      refine derefVoteCommunity_not_addr uv.object.object env s ?_
      have h3 : (derefVoteCommunity uv.object.object env s).1 = .error e := by
        rw [UndoVote.getCommunity, Vote.getCommunity] at hd
        rw [hd]
      rw [h3, h2]
    · next community s1 hd =>
      split
      · next e s2 hp =>
        intro hcontra
        have h2 : e = .addressingPolicyViolation := by injection hcontra
        refine verify_person_in_community_not_addr uv.actor community env w s1 ?_
        rw [hp, h2]
      · next u s2 hp =>
        split
        · next e hm =>
          have h1 := verify_urls_match_err hm
          intro hcontra
          have h2 : e = .addressingPolicyViolation := by injection hcontra
          rw [h1] at h2
          exact absurd h2 (by simp)
        · exact vote_verify_not_addr uv.object env w s2

lemma undoVote_verify_mismatch_err (uv : UndoVote) (env : Env) (w : World) (s : ProcState)
    (hne : uv.object.actor ≠ uv.actor) :
    ∃ e, (UndoVote.verify uv env w s).1 = .error e := by
  unfold UndoVote.verify
  split
  · next e heq => exact ⟨e, rfl⟩
  · split
    · next e s1 hd => exact ⟨e, rfl⟩
    · next community s1 hd =>
      split
      · next e s2 hp => exact ⟨e, rfl⟩
      · next u s2 hp =>
        split
        · next e hm => exact ⟨e, rfl⟩
        · next u2 hm =>
          exact absurd (verify_urls_match_ok hm) (fun h => hne h.symm)

lemma undoVote_verify_mismatch_eq (uv : UndoVote) (env : Env) (w : World) (s : ProcState)
    (hne : uv.object.actor ≠ uv.actor) {c : Community} {s1 s2 : ProcState} {u : Unit}
    (h1 : check_apub_id_valid env uv.id = .ok u)
    (h2 : UndoVote.getCommunity uv env s = (.ok c, s1))
    (h3 : verify_person_in_community uv.actor c env w s1 = (.ok (), s2)) :
    UndoVote.verify uv env w s = (.error .actorMismatch, s2) := by
  have hm : verify_urls_match uv.actor uv.object.actor = .error .actorMismatch :=
    verify_urls_match_ne (fun h => hne h.symm)
  simp [UndoVote.verify, h1, h2, h3, hm]

lemma undoVote_verify_ok_urls {uv : UndoVote} {env : Env} {w : World} {s : ProcState}
    {u : Unit} {s1 : ProcState} (h : UndoVote.verify uv env w s = (.ok u, s1)) :
    uv.actor = uv.object.actor := by
  unfold UndoVote.verify at h
  split at h
  · simp at h
  · split at h
    · simp at h
    · split at h
      · simp at h
      · split at h
        · simp at h
        · next u2 hm => exact verify_urls_match_ok hm

lemma filter_not_filter {α : Type} (P : α → Prop) [DecidablePred P] (l : List α) :
    (l.filter (fun x => decide (¬ P x))).filter (fun x => decide (P x)) = [] := by
  induction l with
  | nil => rfl
  | cons a t ih =>
    by_cases h : P a
    · simp [List.filter_cons, h, ih]
    · simp [List.filter_cons, h, ih]

lemma undoVote_receive_ok_votes {uv : UndoVote} {env : Env} {w : World} {s : ProcState}
    {w1 : World} {s1 : ProcState} (h : UndoVote.receive uv env w s = (.ok (), w1, s1)) :
    ∃ A x sA, derefPerson uv.actor env s = (.ok A, sA) ∧
      derefPoc uv.object.object env sA = (.ok x, s1) ∧
      recordedVotes w1 A.id x = [] := by
  unfold UndoVote.receive at h
  split at h
  · simp at h
  · next A sA hact =>
    split at h
    · simp at h
    · next x s2 hpoc =>
      cases x with
      | post p =>
        injection h with h1 h2
        injection h2 with h2 h3
        subst h2 h3
        refine ⟨A, .post p, sA, hact, hpoc, ?_⟩
        simp only [recordedVotes, undo_vote_post]
        rw [filter_not_filter]
        rfl
      | comment c0 =>
        injection h with h1 h2
        injection h2 with h2 h3
        subst h2 h3
        refine ⟨A, .comment c0, sA, hact, hpoc, ?_⟩
        simp only [recordedVotes, undo_vote_comment]
        rw [filter_not_filter]
        rfl

/-- C1: for every RemoveMod activity that passes verification and whose receive
step completes, receive removes the object person from the target community's
moderator relation and appends exactly one moderation-log entry recording the
outer actor as mod, the object person as other, the community, and
removed = true.  The entities are exactly those the activity's target, object
and actor URLs resolve to in the environment. -/
theorem removeMod_receive_removes_and_logs (a : RemoveMod) (env : Env) (w : World)
    (b : Nat) (w1 : World) (s1 : ProcState)
    (h : processRemoveMod a env w b = (.ok (), w1, s1)) :
    ∃ c p m,
      (env.local_community_by_mods_url a.target = some c ∨
        env.remote_community_by_mods_url a.target = some c) ∧
      (env.local_person a.object = some p ∨ env.remote_person a.object = some p) ∧
      (env.local_person a.actor = some m ∨ env.remote_person a.actor = some m) ∧
      w1.community_moderators =
        w.community_moderators.filter (fun q => decide (q ≠ (c.id, p.id))) ∧
      w1.modlog = w.modlog ++ [⟨m.id, p.id, c.id, true⟩] := by
  rcases processRemoveMod_spec a env w b with ⟨⟨e, he⟩, _⟩ | ⟨c, p, m, t1, t2, t3, hok, hw⟩
  · rw [h] at he
    simp at he
  · have hw2 : w1 = { w with community_moderators := w.community_moderators.filter (fun q => decide (q ≠ (c.id, p.id))), modlog := w.modlog ++ [⟨m.id, p.id, c.id, true⟩] } := by
      rw [h] at hw
      exact hw
    exact ⟨c, p, m, t1, t2, t3, by rw [hw2], by rw [hw2]⟩

/-- Witness for C1: moderator A removes moderator P from community C on the
concrete environment; the moderator row (5, 2) is deleted and one log entry
(mod 1, other 2, community 5, removed) is appended. -/
theorem removeMod_receive_removes_and_logs_witness :
    ∃ c p m,
      (env1.local_community_by_mods_url rm1.target = some c ∨
        env1.remote_community_by_mods_url rm1.target = some c) ∧
      (env1.local_person rm1.object = some p ∨ env1.remote_person rm1.object = some p) ∧
      (env1.local_person rm1.actor = some m ∨ env1.remote_person rm1.actor = some m) ∧
      wrldOut.community_moderators =
        wrld.community_moderators.filter (fun q => decide (q ≠ (c.id, p.id))) ∧
      wrldOut.modlog = wrld.modlog ++ [⟨m.id, p.id, c.id, true⟩] :=
  removeMod_receive_removes_and_logs rm1 env1 wrld 3 wrldOut (mkState 3) (by rfl)

/-- C2: per-activity atomicity of the apply step.  Processing one inbound
RemoveMod either leaves the database exactly as it was, or succeeds and applies
both effects together: the moderator-relation deletion and the single matching
moderation-log entry.  No run of the pipeline leaves a moderator-list edit
without its log entry or vice versa. -/
theorem removeMod_apply_atomic (a : RemoveMod) (env : Env) (w : World) (b : Nat) :
    (processRemoveMod a env w b).2.1 = w ∨
    (∃ (c : Community) (p m : Person), (processRemoveMod a env w b).1 = .ok () ∧
      (processRemoveMod a env w b).2.1.community_moderators =
        w.community_moderators.filter (fun q => decide (q ≠ (c.id, p.id))) ∧
      (processRemoveMod a env w b).2.1.modlog = w.modlog ++ [⟨m.id, p.id, c.id, true⟩]) := by
  rcases processRemoveMod_spec a env w b with ⟨_, hw⟩ | ⟨c, p, m, _, _, _, hok, hw⟩
  · exact Or.inl hw
  · refine Or.inr ⟨c, p, m, hok, ?_, ?_⟩ <;> rw [hw]

/-- Counterexample to C3: the UndoVote envelope carries no to/cc addressing
fields at all (see `UndoVote`, mirroring the construction in UndoVote::send),
and `UndoVote.verify` performs no public-addressing check, so this undo
envelope without public addressing is accepted rather than rejected. -/
theorem undoVote_accepted_without_public_addressing :
    UndoVote.verify uv0 env1 wrld (mkState 3) = (.ok (), mkState 3) := rfl

/-- C3 as amended: inbound UndoVote verification performs no addressing check at
all; it never rejects an envelope with an addressing-policy violation (the
envelope has no addressing fields to check). -/
theorem undoVote_no_addressing_rejection (uv : UndoVote) (env : Env) (w : World)
    (s : ProcState) :
    (UndoVote.verify uv env w s).1 ≠ .error .addressingPolicyViolation :=
  undoVote_verify_not_addr_raw uv env w s

/-- Witness for amended C3 at a concrete envelope and environment. -/
theorem undoVote_no_addressing_rejection_witness :
    (UndoVote.verify uv0 env1 wrld (mkState 3)).1 ≠ .error .addressingPolicyViolation :=
  undoVote_no_addressing_rejection uv0 env1 wrld (mkState 3)

/-- C4: an UndoVote whose wrapped vote names a different actor than the envelope
never passes verification; verification is independent of the post/comment
resolver, so the rejection happens without any resolution of the vote's target;
and whenever the checks preceding the cross-field comparison succeed, the
rejection is precisely ActorMismatch. -/
theorem undoVote_actor_mismatch_rejected_early (uv : UndoVote) (env : Env) (w : World)
    (s : ProcState) (hne : uv.object.actor ≠ uv.actor) :
    (∃ e, (UndoVote.verify uv env w s).1 = .error e) ∧
    (∀ lp rp, UndoVote.verify uv { env with local_poc := lp, remote_poc := rp } w s =
      UndoVote.verify uv env w s) ∧
    (∀ (c : Community) (s1 s2 : ProcState) (u : Unit),
      check_apub_id_valid env uv.id = .ok u →
      UndoVote.getCommunity uv env s = (.ok c, s1) →
      verify_person_in_community uv.actor c env w s1 = (.ok (), s2) →
      UndoVote.verify uv env w s = (.error .actorMismatch, s2)) := by
  refine ⟨undoVote_verify_mismatch_err uv env w s hne, ?_, ?_⟩
  · intro lp rp
    rfl
  · intro c s1 s2 u h1 h2 h3
    exact undoVote_verify_mismatch_eq uv env w s hne h1 h2 h3

/-- Witness for C4: the crafted envelope uv1 (outer actor A, inner actor B) is
rejected with ActorMismatch on the concrete environment. -/
theorem undoVote_actor_mismatch_rejected_early_witness :
    UndoVote.verify uv1 env1 wrld (mkState 3) = (.error .actorMismatch, mkState 3) :=
  (undoVote_actor_mismatch_rejected_early uv1 env1 wrld (mkState 3) (by decide)).2.2
    communityC (mkState 3) (mkState 3) () (by rfl) (by rfl) (by rfl)

/-- C5: an inbound RemoveMod whose actor resolves but does not hold moderator
standing in the target community is rejected with NotAuthorized, the database is
untouched and in particular no moderation-log entry is created. -/
theorem removeMod_nonmod_rejected_notAuthorized (a : RemoveMod) (env : Env) (w : World)
    (b : Nat) (c : Community) (m : Person) (s1 s2 s3 : ProcState)
    (h1 : check_apub_id_valid env a.id = .ok ())
    (h2 : verify_is_public a.to_ a.cc = .ok ())
    (h3 : RemoveMod.getCommunity a env (mkState b) = (.ok c, s1))
    (h4 : verify_person_in_community a.actor c env w s1 = (.ok (), s2))
    (h5 : derefPerson a.actor env s2 = (.ok m, s3))
    (h6 : (c.id, m.id) ∉ w.community_moderators) :
    processRemoveMod a env w b = (.error .notAuthorized, w, s3) ∧
    (processRemoveMod a env w b).2.1.modlog = w.modlog := by
  have hma : verify_mod_action a.actor a.object c.id env w s2 = (.error .notAuthorized, s3) := by
    unfold verify_mod_action
    rw [h5]
    simp [h6]
  have hv : RemoveMod.verify a env w (mkState b) = (.error .notAuthorized, s3) := by
    simp [RemoveMod.verify, h1, h2, h3, h4, hma]
  constructor
  · simp [processRemoveMod, hv]
  · simp [processRemoveMod, hv]

/-- Witness for C5: member N (not a moderator) attempts to remove moderator P
and is rejected with NotAuthorized, leaving the database unchanged. -/
theorem removeMod_nonmod_rejected_notAuthorized_witness :
    processRemoveMod rmN env1 wrld 3 = (.error .notAuthorized, wrld, mkState 3) ∧
    (processRemoveMod rmN env1 wrld 3).2.1.modlog = wrld.modlog :=
  removeMod_nonmod_rejected_notAuthorized rmN env1 wrld 3 communityC personN
    (mkState 3) (mkState 3) (mkState 3) (by rfl) (by rfl) (by rfl) (by rfl) (by rfl)
    (by decide)

/-- C6: a failed verification is terminal: the pipeline returns exactly the
verification error, the receive step is never entered, and the database is
returned unchanged, for RemoveMod and for UndoVote alike. -/
theorem verify_failure_rejects_without_state_change :
    (∀ (a : RemoveMod) (env : Env) (w : World) (b : Nat) (e : LemmyError) (s1 : ProcState),
      RemoveMod.verify a env w (mkState b) = (.error e, s1) →
      processRemoveMod a env w b = (.error e, w, s1)) ∧
    (∀ (uv : UndoVote) (env : Env) (w : World) (b : Nat) (e : LemmyError) (s1 : ProcState),
      UndoVote.verify uv env w (mkState b) = (.error e, s1) →
      processUndoVote uv env w b = (.error e, w, s1)) := by
  constructor
  · intro a env w b e s1 h
    simp [processRemoveMod, h]
  · intro uv env w b e s1 h
    simp [processUndoVote, h]

/-- Witness for C6: a RemoveMod with a policy-rejected id is rejected by the
pipeline with the verification error and an unchanged database. -/
theorem verify_failure_rejects_without_state_change_witness :
    processRemoveMod rmBad env1 wrld 3 = (.error .invalidIdentity, wrld, mkState 3) :=
  verify_failure_rejects_without_state_change.1 rmBad env1 wrld 3 .invalidIdentity
    (mkState 3) (by rfl)

/-- C7: RemoveMod verification runs its checks in order — identity validity of
the activity's own id, then the public-addressing check, then community
resolution and actor membership, then moderator authorization, then the
target-URL consistency check — and a failure at any stage yields that stage's
error for every possible configuration of the later stages' data, so no later
check runs after a failure. -/
theorem removeMod_verify_check_order :
    (∀ (a : RemoveMod) (env : Env) (w : World) (s : ProcState),
      env.allowed_url a.id = false →
      RemoveMod.verify a env w s = (.error .invalidIdentity, s)) ∧
    (∀ (a : RemoveMod) (env : Env) (w : World) (s : ProcState),
      env.allowed_url a.id = true → publicUrl ∉ a.to_ → publicUrl ∉ a.cc →
      RemoveMod.verify a env w s = (.error .addressingPolicyViolation, s)) ∧
    (∀ (a : RemoveMod) (env : Env) (w : World) (s : ProcState) (e : LemmyError)
      (s1 : ProcState),
      check_apub_id_valid env a.id = .ok () → verify_is_public a.to_ a.cc = .ok () →
      RemoveMod.getCommunity a env s = (.error e, s1) →
      RemoveMod.verify a env w s = (.error e, s1)) ∧
    (∀ (a : RemoveMod) (env : Env) (w : World) (s : ProcState) (c : Community)
      (s1 : ProcState) (e : LemmyError) (s2 : ProcState),
      check_apub_id_valid env a.id = .ok () → verify_is_public a.to_ a.cc = .ok () →
      RemoveMod.getCommunity a env s = (.ok c, s1) →
      verify_person_in_community a.actor c env w s1 = (.error e, s2) →
      RemoveMod.verify a env w s = (.error e, s2)) ∧
    (∀ (a : RemoveMod) (env : Env) (w : World) (s : ProcState) (c : Community)
      (s1 s2 : ProcState) (e : LemmyError) (s3 : ProcState),
      check_apub_id_valid env a.id = .ok () → verify_is_public a.to_ a.cc = .ok () →
      RemoveMod.getCommunity a env s = (.ok c, s1) →
      verify_person_in_community a.actor c env w s1 = (.ok (), s2) →
      verify_mod_action a.actor a.object c.id env w s2 = (.error e, s3) →
      RemoveMod.verify a env w s = (.error e, s3)) ∧
    (∀ (a : RemoveMod) (env : Env) (w : World) (s : ProcState) (c : Community)
      (s1 s2 s3 : ProcState),
      check_apub_id_valid env a.id = .ok () → verify_is_public a.to_ a.cc = .ok () →
      RemoveMod.getCommunity a env s = (.ok c, s1) →
      verify_person_in_community a.actor c env w s1 = (.ok (), s2) →
      verify_mod_action a.actor a.object c.id env w s2 = (.ok (), s3) →
      a.target ≠ generate_moderators_url c.actor_id →
      RemoveMod.verify a env w s = (.error .invalidTarget, s3)) := by
  refine ⟨?_, ?_, ?_, ?_, ?_, ?_⟩
  · intro a env w s h
    simp [RemoveMod.verify, check_apub_id_valid, h]
  · intro a env w s h hto hcc
    simp [RemoveMod.verify, check_apub_id_valid, verify_is_public, h, hto, hcc]
  · intro a env w s e s1 h1 h2 hcom
    simp [RemoveMod.verify, h1, h2, hcom]
  · intro a env w s c s1 e s2 h1 h2 hcom hp
    simp [RemoveMod.verify, h1, h2, hcom, hp]
  · intro a env w s c s1 s2 e s3 h1 h2 hcom hp hm
    simp [RemoveMod.verify, h1, h2, hcom, hp, hm]
  · intro a env w s c s1 s2 s3 h1 h2 hcom hp hm htgt
    simp [RemoveMod.verify, verify_add_remove_moderator_target, h1, h2, hcom, hp, hm, htgt]

/-- Witness for C7 (first stage): a RemoveMod with a policy-rejected id fails
with InvalidIdentity with the state untouched, whatever the later data are. -/
theorem removeMod_verify_check_order_witness :
    RemoveMod.verify rmBad env1 wrld (mkState 3) = (.error .invalidIdentity, mkState 3) :=
  removeMod_verify_check_order.1 rmBad env1 wrld (mkState 3) (by rfl)

/-- C8: budget exhaustion is harmless to the database: whenever processing an
inbound RemoveMod or UndoVote ends with BudgetExhausted the database is returned
unchanged; and a dereference attempted with zero budget and no cached or local
entity fails with BudgetExhausted immediately, without consulting the network
tables and without changing the state. -/
theorem budget_exhaustion_zero_mutation :
    (∀ (a : RemoveMod) (env : Env) (w : World) (b : Nat),
      (processRemoveMod a env w b).1 = .error .budgetExhausted →
      (processRemoveMod a env w b).2.1 = w) ∧
    (∀ (uv : UndoVote) (env : Env) (w : World) (b : Nat),
      (processUndoVote uv env w b).1 = .error .budgetExhausted →
      (processUndoVote uv env w b).2.1 = w) ∧
    (∀ (u : Url) (env : Env) (s : ProcState), s.budget = 0 →
      cacheFind s.cache.persons u = none → env.local_person u = none →
      derefPerson u env s = (.error .budgetExhausted, s)) ∧
    (∀ (u : Url) (env : Env) (s : ProcState), s.budget = 0 →
      cacheFind s.cache.pocs u = none → env.local_poc u = none →
      derefPoc u env s = (.error .budgetExhausted, s)) := by
  refine ⟨?_, ?_, ?_, ?_⟩
  · intro a env w b h
    rcases processRemoveMod_spec a env w b with ⟨_, hw⟩ | ⟨c, p, m, _, _, _, hok, hw⟩
    · exact hw
    · rw [h] at hok
      exact absurd hok (by simp)
  · intro uv env w b h
    exact processUndoVote_error_world h
  · intro u env s hb hc hl
    simp [derefPerson, hc, hl, hb]
  · intro u env s hb hc hl
    simp [derefPoc, hc, hl, hb]

/-- Witness for C8: with budget zero and a community reachable only remotely,
the RemoveMod pipeline fails with BudgetExhausted and the database is intact. -/
theorem budget_exhaustion_zero_mutation_witness :
    (processRemoveMod rmFar env1 wrld 0).2.1 = wrld :=
  budget_exhaustion_zero_mutation.1 rmFar env1 wrld 0 (by rfl)

/-- C9: whenever UndoVote verification succeeds, the outer envelope's actor URL
equals the wrapped vote's actor URL, so receive's dereference of the outer actor
resolves exactly what the inner vote's actor would. -/
theorem undoVote_verified_actor_agreement (uv : UndoVote) (env : Env) (w : World)
    (s : ProcState) (u : Unit) (s1 : ProcState)
    (h : UndoVote.verify uv env w s = (.ok u, s1)) :
    uv.actor = uv.object.actor ∧
    ∀ s2, derefPerson uv.actor env s2 = derefPerson uv.object.actor env s2 := by
  have he := undoVote_verify_ok_urls h
  exact ⟨he, fun s2 => by rw [he]⟩

/-- Witness for C9: uv0 passes verification, and its outer and inner actor URLs
agree. -/
theorem undoVote_verified_actor_agreement_witness :
    uv0.actor = uv0.object.actor :=
  (undoVote_verified_actor_agreement uv0 env1 wrld (mkState 3) () (mkState 3) (by rfl)).1

/-- C10: UndoVote::receive never reads the wrapped vote's kind — replacing it
changes nothing — and a successful receive leaves no vote record at all for the
resolved actor on the resolved target, whatever polarity had been stored. -/
theorem undoVote_receive_ignores_vote_kind (uv : UndoVote) (k : VoteType) (env : Env)
    (w : World) (s : ProcState) :
    UndoVote.receive { uv with object := { uv.object with kind := k } } env w s =
      UndoVote.receive uv env w s ∧
    (∀ (w1 : World) (s1 : ProcState), UndoVote.receive uv env w s = (.ok (), w1, s1) →
      ∃ A x sA, derefPerson uv.actor env s = (.ok A, sA) ∧
        derefPoc uv.object.object env sA = (.ok x, s1) ∧
        recordedVotes w1 A.id x = []) := by
  refine ⟨rfl, ?_⟩
  intro w1 s1 h
  exact undoVote_receive_ok_votes h

/-- Witness for C10: undoing A's vote on post 9 removes the stored upvote; no
vote by A on post 9 remains. -/
theorem undoVote_receive_ignores_vote_kind_witness :
    ∃ A x sA, derefPerson uv0.actor env1 (mkState 3) = (.ok A, sA) ∧
      derefPoc uv0.object.object env1 sA = (.ok x, mkState 3) ∧
      recordedVotes wrldUndone A.id x = [] :=
  (undoVote_receive_ignores_vote_kind uv0 VoteType.dislike env1 wrld (mkState 3)).2
    wrldUndone (mkState 3) (by rfl)
